import Mathlib

/-!
Shallow embedding of the unified check-in form logic of
`src/components/logging/UnifiedLogScreen.tsx` (draft hydration, trigger
filtering, save path) together with the error behaviour of
`updateStreak` (`src/unnamed/part_006`).

JavaScript records with string keys are modelled as association lists
`List (String × α)`; `null`/`undefined` become `Option`; numbers are `Int`
(severities and trigger values are small integers in the source), with
`Math.round` modelled exactly on rationals.
-/

namespace MyBodyToldMe

/-- `type Mode = 'moment' | 'daily'`. -/
inductive Mode where
  | moment
  | daily
deriving DecidableEq, Repr

/-- One value of the `triggerValues` record:
`{ value: number | null; valueText?: string | null }`. -/
structure TriggerVal where
  value : Option Int
  valueText : Option String
deriving DecidableEq, Repr

/-- The `Draft` type persisted in the local key-value cache. -/
structure Draft where
  mode : Mode
  overallSeverity : Option Int
  selectedConditions : List String
  conditionSeverities : List (String × Int)
  whatDoing : Option String
  notes : String
  triggerValues : List (String × TriggerVal)
deriving DecidableEq, Repr

/-- The editable form fields of the screen (the Form State Store). -/
structure FormState where
  overallSeverity : Option Int
  selectedConditions : List String
  conditionSeverities : List (String × Int)
  whatDoing : String
  notes : String
  triggerValues : List (String × TriggerVal)
deriving DecidableEq, Repr

/-- `resetForm` clears every editable field to its default. -/
def resetForm : FormState :=
  { overallSeverity := none
    selectedConditions := []
    conditionSeverities := []
    whatDoing := ""
    notes := ""
    triggerValues := [] }

/-- JavaScript `Math.round` on a rational: halves round toward `+∞`. -/
def jsRound (q : ℚ) : ℤ := Int.floor (q + 1/2)

/-- JavaScript `s || null` on a string: the empty string is falsy. -/
def jsStrOrNull (s : String) : Option String :=
  if s = "" then none else some s

/-- JavaScript `o || null` on an optional string (used for `valueText`):
absent, null and empty all become null. -/
def jsOptStrOrNull (o : Option String) : Option String :=
  match o with
  | none => none
  | some s => jsStrOrNull s

/-- The `avgConditionSeverity` computation of `handleSave`:
`Math.round(selected.reduce((sum, id) => sum + (conditionSeverities[id] || 0), 0) / selected.length)`
when at least one condition is selected, otherwise `null`.  A selected
condition with no stored severity contributes `0` to the sum. -/
def avgConditionSeverity (selected : List String)
    (conditionSeverities : List (String × Int)) : Option Int :=
  if selected.length > 0 then
    some (jsRound
      (((selected.map (fun id => (conditionSeverities.lookup id).getD 0)).sum : ℤ)
        / (selected.length : ℚ)))
  else none

/-- `finalOverallSeverity = overallSeverity ?? avgConditionSeverity`. -/
def finalOverallSeverity (overallSeverity : Option Int)
    (selected : List String)
    (conditionSeverities : List (String × Int)) : Option Int :=
  match overallSeverity with
  | some v => some v
  | none => avgConditionSeverity selected conditionSeverities

/-- The severity computation as the specification words it: the explicit
field if set, otherwise the round-half-up mean of all currently-set
per-condition severities, otherwise null.  Written from the spec text, to
be compared against `finalOverallSeverity` from the source. -/
def specFinalOverallSeverity (overallSeverity : Option Int)
    (conditionSeverities : List (String × Int)) : Option Int :=
  match overallSeverity with
  | some v => some v
  | none =>
    let vals := conditionSeverities.map Prod.snd
    if vals.length > 0 then
      some (jsRound ((vals.sum : ℤ) / (vals.length : ℚ)))
    else none

/-- One row of the TriggerEntries write-set built by `handleSave`. -/
structure TrigEntry where
  trigger_id : String
  value : Int
  value_text : Option String
deriving DecidableEq, Repr

/-- `triggerEntries`: one entry per trigger whose current value is
non-null; `value_text` is `data.valueText || null`. -/
def triggerEntries (triggerValues : List (String × TriggerVal)) :
    List TrigEntry :=
  triggerValues.filterMap (fun p =>
    p.2.value.map (fun n =>
      { trigger_id := p.1, value := n, value_text := jsOptStrOrNull p.2.valueText }))

/-- The fields of a catalog trigger that the screen's filtering consults. -/
structure Trigger where
  id : String
  key : String
  input_type : String
deriving DecidableEq, Repr

/-- `onPeriodTrigger = enabledTriggers.find((t) => t.key === 'on_period')`. -/
def onPeriodTrigger (enabledTriggers : List Trigger) : Option Trigger :=
  enabledTriggers.find? (fun t => t.key == "on_period")

/-- `showPeriodPain = onPeriodTrigger && triggerValues[onPeriodTrigger.id]?.value === 1`. -/
def showPeriodPain (enabledTriggers : List Trigger)
    (triggerValues : List (String × TriggerVal)) : Bool :=
  match onPeriodTrigger enabledTriggers with
  | none => false
  | some t => ((triggerValues.lookup t.id).bind TriggerVal.value) == some 1

/-- `filteredTriggers`: drop triggers keyed `period_pain` unless
`showPeriodPain`; everything else passes through. -/
def filteredTriggers (enabledTriggers : List Trigger)
    (triggerValues : List (String × TriggerVal)) : List Trigger :=
  enabledTriggers.filter (fun t =>
    if t.key == "period_pain" then showPeriodPain enabledTriggers triggerValues
    else true)

/-- JavaScript object assignment `m[k] = v`: replace the value in place if
the key exists, otherwise append the key at the end. -/
def jsSet (m : List (String × α)) (k : String) (v : α) : List (String × α) :=
  if (m.lookup k).isSome then
    m.map (fun p => if p.1 = k then (k, v) else p)
  else m ++ [(k, v)]

/-- The pruning pass of `loadEnabledTriggers`: after a successful fetch the
leaf (non-group) triggers are kept and `triggerValues` is rebuilt keeping
only the entries of triggers still enabled
(`for (const t of leafTriggers) if (prev[t.id]) next[t.id] = prev[t.id]`). -/
def pruneTriggerValues (leafTriggers : List Trigger)
    (prev : List (String × TriggerVal)) : List (String × TriggerVal) :=
  leafTriggers.foldl (fun next t =>
    match prev.lookup t.id with
    | some v => jsSet next t.id v
    | none => next) []

/-- The successful path of `loadEnabledTriggers`: the fetched triggers are
reduced to the leaves (`input_type !== 'group'`), which become the new
enabled list, and the trigger-value record is pruned to them. -/
def loadEnabledTriggers (fetched : List Trigger)
    (prev : List (String × TriggerVal)) :
    List Trigger × List (String × TriggerVal) :=
  let leafTriggers := fetched.filter (fun t => t.input_type ≠ "group")
  (leafTriggers, pruneTriggerValues leafTriggers prev)

/-- One row of `daily_logs` for the current (user, date), as the screen
reads and writes it. -/
structure DailyRowData where
  id : String
  overall_severity : Option Int
  notes : Option String
deriving DecidableEq, Repr

/-- One child row of `daily_log_conditions` / `moment_log_conditions`. -/
structure CondRow where
  log_id : String
  user_condition_id : String
  severity : Option Int
deriving DecidableEq, Repr

/-- One child row of `daily_log_triggers` / `moment_log_triggers`. -/
structure TrigRow where
  log_id : String
  trigger_id : String
  value : Option Int
  value_text : Option String
deriving DecidableEq, Repr

/-- One row of `moment_logs`. -/
structure MomentRowData where
  id : String
  overall_severity : Option Int
  activity : Option String
  notes : Option String
deriving DecidableEq, Repr

/-- The slice of the relational store the screen touches, restricted to the
current (user, localDate): the unique daily row (if any), the child tables,
and the moment rows. -/
structure Db where
  daily : Option DailyRowData
  dailyConds : List CondRow
  dailyTrigs : List TrigRow
  moments : List MomentRowData
  momentConds : List CondRow
  momentTrigs : List TrigRow
deriving DecidableEq, Repr

/-! ### Hydration

The `hydrate` closure of the screen's main effect is modelled as the list
of React state writes it performs, each tagged with the index of the
resumption (await-completion) at which it executes.  Index 0 is the
synchronous prefix, 1 is the return of `loadDraft()`, 2 the return of the
`daily_logs` fetch, 3 the return of the `daily_log_conditions` fetch and 4
the return of the `daily_log_triggers` fetch.  The closure-captured
`cancelled` flag can only be flipped while the routine is suspended, so a
cancellation time is a resumption index: from that resumption on, the flag
reads true. -/

/-- A single React state write performed by `hydrate`. -/
inductive FWrite where
  | wOverall (v : Option Int)
  | wSelected (v : List String)
  | wCondSev (v : List (String × Int))
  | wWhatDoing (v : String)
  | wNotes (v : String)
  | wTriggers (v : List (String × TriggerVal))
  | wHydrated (b : Bool)
deriving DecidableEq, Repr

/-- Whether the `cancelled` flag reads true at resumption `j`, when the
cleanup ran during suspension `k` (`c = some k`). -/
def cancelledAt (c : Option Nat) (j : Nat) : Bool :=
  match c with
  | none => false
  | some k => k ≤ j

/-- Writes of `setHydrated(false)` followed by `resetForm()`. -/
def resetWrites : List FWrite :=
  [.wHydrated false, .wOverall none, .wSelected [], .wCondSev [],
   .wWhatDoing "", .wNotes "", .wTriggers []]

/-- The writes of the draft branch of `hydrate`: every field verbatim from
the draft, `whatDoing` only when the draft's stored mode is moment, then
`setHydrated(true)`. -/
def draftWrites (d : Draft) : List FWrite :=
  [.wOverall d.overallSeverity,
   .wSelected d.selectedConditions,
   .wCondSev d.conditionSeverities,
   .wWhatDoing (if d.mode = Mode.moment then d.whatDoing.getD "" else ""),
   .wNotes d.notes,
   .wTriggers d.triggerValues,
   .wHydrated true]

/-- Rebuilding the `triggerValues` record from fetched child rows
(`nextTV[row.trigger_id] = { value: row.value, valueText: row.value_text }`). -/
def dbTriggerValues (rows : List TrigRow) : List (String × TriggerVal) :=
  rows.foldl (fun acc r => jsSet acc r.trigger_id ⟨r.value, r.value_text⟩) []

/-- The trace of `hydrate` given a cancellation time `c`, the current mode,
the draft-cache lookup result (`none` also covers an unparseable draft) and
the relational store.  Guards mirror the source: the draft branch runs
under `!cancelled && draft`; the daily branch's row writes run under
`!cancelled && daily?.id`; the child-row writes at resumptions 3 and 4 are
not guarded again; the final `setHydrated(true)` is guarded. -/
def hydrateRun (c : Option Nat) (mode : Mode) (draft : Option Draft)
    (db : Db) : List (Nat × FWrite) :=
  let pre := resetWrites.map (fun w => (0, w))
  match draft, cancelledAt c 1 with
  | some d, false => pre ++ (draftWrites d).map (fun w => (1, w))
  | _, _ =>
    match mode with
    | Mode.daily =>
      let pre1 := pre ++ [(1, FWrite.wWhatDoing "")]
      match db.daily, cancelledAt c 2 with
      | some row, false =>
        let childConds := db.dailyConds.filter (fun r => r.log_id == row.id)
        let selected := childConds.map CondRow.user_condition_id
        let sevs := childConds.filterMap
          (fun r => r.severity.map (fun s => (r.user_condition_id, s)))
        let childTrigs := db.dailyTrigs.filter (fun r => r.log_id == row.id)
        pre1 ++
          [(2, FWrite.wOverall row.overall_severity),
           (2, FWrite.wNotes (row.notes.getD ""))] ++
          [(3, FWrite.wSelected selected), (3, FWrite.wCondSev sevs)] ++
          [(4, FWrite.wTriggers (dbTriggerValues childTrigs))] ++
          (if cancelledAt c 4 then [] else [(4, FWrite.wHydrated true)])
      | _, _ =>
        pre1 ++ (if cancelledAt c 2 then [] else [(2, FWrite.wHydrated true)])
    | Mode.moment =>
      pre ++ (if cancelledAt c 1 then [] else [(1, FWrite.wHydrated true)])

/-- Apply one state write to (form, hydrated flag). -/
def applyWrite (s : FormState × Bool) (w : FWrite) : FormState × Bool :=
  match w with
  | .wOverall v => ({ s.1 with overallSeverity := v }, s.2)
  | .wSelected v => ({ s.1 with selectedConditions := v }, s.2)
  | .wCondSev v => ({ s.1 with conditionSeverities := v }, s.2)
  | .wWhatDoing v => ({ s.1 with whatDoing := v }, s.2)
  | .wNotes v => ({ s.1 with notes := v }, s.2)
  | .wTriggers v => ({ s.1 with triggerValues := v }, s.2)
  | .wHydrated b => (s.1, b)

/-- Apply a whole trace of writes. -/
def applyWrites (s : FormState × Bool) (ws : List (Nat × FWrite)) :
    FormState × Bool :=
  ws.foldl (fun s p => applyWrite s p.2) s

/-- The writes of a hydration trace that execute at a resumption where the
`cancelled` flag already reads true: these land in the Form State Store of
the new editing context. -/
def writesWhileCancelled (c : Option Nat) (run : List (Nat × FWrite)) :
    List FWrite :=
  (run.filter (fun p => cancelledAt c p.1)).map Prod.snd

/-! ### Save path

`handleSave` is modelled as a function of the form state, the relational
store slice and the draft cache, together with a failure oracle `Env`
saying which backend calls reject.  A thrown error lands in the single
`catch`, which surfaces an alert and performs none of the epilogue
(`clearDraft`, `resetForm`, `setSaved(true)`). -/

/-- Which backend calls of the save path (and of the awaited `updateStreak`)
fail.  Each flag corresponds to one `if (err) throw err` site. -/
structure Env where
  exErr : Bool
  updErr : Bool
  createErr : Bool
  delCondErr : Bool
  delTrigErr : Bool
  insCondErr : Bool
  insTrigErr : Bool
  momentErr : Bool
  insMCondErr : Bool
  insMTrigErr : Bool
  streakFetchErr : Bool
  streakUpdErr : Bool
deriving DecidableEq, Repr

/-- The all-success oracle. -/
def Env.ok : Env :=
  ⟨false, false, false, false, false, false, false, false, false, false,
   false, false⟩

/-- `updateStreak` (src/unnamed/part_006) rethrows both its `users` fetch
error and its `users` update error, so the awaited call in `handleSave`
rejects iff either backend call fails. -/
def updateStreakThrows (env : Env) : Bool :=
  env.streakFetchErr || env.streakUpdErr

/-- Outcome of one `handleSave` invocation: resulting store slice, draft
cache, form state, and whether "saved" was signalled or an error alert
surfaced. -/
structure SaveResult where
  db : Db
  drafts : List (String × Draft)
  form : FormState
  saved : Bool
  errorSurfaced : Bool
deriving DecidableEq, Repr

/-- The `catch` branch: alert shown, nothing of the epilogue runs. -/
def failRes (db : Db) (drafts : List (String × Draft)) (form : FormState) :
    SaveResult :=
  { db := db, drafts := drafts, form := form, saved := false,
    errorSurfaced := true }

/-- The ConditionEntries write-set: one row per selected condition, with
`severity: conditionSeverities[id] ?? null`. -/
def condEntries (logId : String) (form : FormState) : List CondRow :=
  form.selectedConditions.map (fun cid =>
    { log_id := logId, user_condition_id := cid,
      severity := form.conditionSeverities.lookup cid })

/-- A TriggerEntries write-set row as inserted for log `logId`. -/
def trigRowOf (logId : String) (e : TrigEntry) : TrigRow :=
  { log_id := logId, trigger_id := e.trigger_id, value := some e.value,
    value_text := e.value_text }

/-- Shared tail of the DAILY save: optional child inserts, the awaited
`updateStreak`, then the success epilogue. -/
def dailySaveTail (env : Env) (logId : String) (form : FormState)
    (draftKey : String) (db : Db) (drafts : List (String × Draft))
    (tEntries : List TrigEntry) : SaveResult :=
  if form.selectedConditions.length > 0 ∧ env.insCondErr = true then
    failRes db drafts form
  else
    let db1 := if form.selectedConditions.length > 0 then
        { db with dailyConds := db.dailyConds ++ condEntries logId form }
      else db
    if tEntries.length > 0 ∧ env.insTrigErr = true then failRes db1 drafts form
    else
      let db2 := if tEntries.length > 0 then
          { db1 with dailyTrigs := db1.dailyTrigs ++ tEntries.map (trigRowOf logId) }
        else db1
      if updateStreakThrows env then failRes db2 drafts form
      else
        { db := db2, drafts := drafts.filter (fun p => p.1 != draftKey),
          form := resetForm, saved := true, errorSurfaced := false }

/-- The DAILY branch of `handleSave`: look up the existing row; update it
and delete both child sets, or insert a fresh row; then the shared tail. -/
def handleSaveDaily (env : Env) (newId : String) (form : FormState)
    (draftKey : String) (db : Db) (drafts : List (String × Draft)) :
    SaveResult :=
  let fos := finalOverallSeverity form.overallSeverity form.selectedConditions
    form.conditionSeverities
  let tEntries := triggerEntries form.triggerValues
  if env.exErr = true then failRes db drafts form
  else
    match db.daily with
    | some existing =>
      if env.updErr = true then failRes db drafts form
      else
        let db1 := { db with daily := some { existing with
          overall_severity := fos, notes := jsStrOrNull form.notes } }
        if env.delCondErr = true then failRes db1 drafts form
        else
          let db2 := { db1 with dailyConds :=
            db1.dailyConds.filter (fun r => r.log_id != existing.id) }
          if env.delTrigErr = true then failRes db2 drafts form
          else
            let db3 := { db2 with dailyTrigs :=
              db2.dailyTrigs.filter (fun r => r.log_id != existing.id) }
            dailySaveTail env existing.id form draftKey db3 drafts tEntries
    | none =>
      if env.createErr = true then failRes db drafts form
      else
        let created : DailyRowData :=
          { id := newId, overall_severity := fos, notes := jsStrOrNull form.notes }
        dailySaveTail env newId form draftKey
          { db with daily := some created } drafts tEntries

/-- Shared tail of the MOMENT save: optional child inserts, the awaited
`updateStreak`, then the success epilogue. -/
def momentSaveTail (env : Env) (momentId : String) (form : FormState)
    (draftKey : String) (db : Db) (drafts : List (String × Draft))
    (tEntries : List TrigEntry) : SaveResult :=
  if form.selectedConditions.length > 0 ∧ env.insMCondErr = true then
    failRes db drafts form
  else
    let db1 := if form.selectedConditions.length > 0 then
        { db with momentConds := db.momentConds ++ condEntries momentId form }
      else db
    if tEntries.length > 0 ∧ env.insMTrigErr = true then failRes db1 drafts form
    else
      let db2 := if tEntries.length > 0 then
          { db1 with momentTrigs := db1.momentTrigs ++ tEntries.map (trigRowOf momentId) }
        else db1
      if updateStreakThrows env then failRes db2 drafts form
      else
        { db := db2, drafts := drafts.filter (fun p => p.1 != draftKey),
          form := resetForm, saved := true, errorSurfaced := false }

/-- The MOMENT branch of `handleSave`: always insert a fresh `moment_logs`
row, then the shared tail. -/
def handleSaveMoment (env : Env) (newId : String) (form : FormState)
    (draftKey : String) (db : Db) (drafts : List (String × Draft)) :
    SaveResult :=
  let fos := finalOverallSeverity form.overallSeverity form.selectedConditions
    form.conditionSeverities
  let tEntries := triggerEntries form.triggerValues
  if env.momentErr = true then failRes db drafts form
  else
    momentSaveTail env newId form draftKey
      { db with moments := db.moments ++
        [{ id := newId, overall_severity := fos,
           activity := jsStrOrNull form.whatDoing,
           notes := jsStrOrNull form.notes }] }
      drafts tEntries

/-- `handleSave`, branching on the current mode. -/
def handleSave (env : Env) (newId : String) (mode : Mode) (form : FormState)
    (draftKey : String) (db : Db) (drafts : List (String × Draft)) :
    SaveResult :=
  match mode with
  | Mode.daily => handleSaveDaily env newId form draftKey db drafts
  | Mode.moment => handleSaveMoment env newId form draftKey db drafts

/-! ### Autosave session

The autosave effect has `hydrated`, `saved` and every form field among its
dependencies and runs after each committed state change, writing the
current snapshot to the draft cache unless `!hydrated` or `saved` stops
it.  Form snapshots are abstracted to a number; the events of one editing
session are hydration completion, a user edit, and a successful save
(which clears the draft, resets the form and sets `saved`). -/

/-- Session state: current form snapshot, the two gate flags, the draft
cache slot for this key, and the log of autosave writes performed. -/
structure Session where
  fields : Nat
  hydrated : Bool
  saved : Bool
  draft : Option Nat
  writes : List Nat
deriving DecidableEq, Repr

/-- Events of one editing session for a fixed (user, date, mode) key. -/
inductive SEvent where
  | hydrationComplete (snapshot : Nat)
  | edit (snapshot : Nat)
  | saveSuccess
deriving DecidableEq, Repr

/-- Whether an event is a hydration completion. -/
def SEvent.isHydrationComplete : SEvent → Bool
  | .hydrationComplete _ => true
  | _ => false

/-- The React state updates of one event, before effects run. -/
def applyEvent (s : Session) (e : SEvent) : Session :=
  match e with
  | .hydrationComplete snap => { s with fields := snap, hydrated := true }
  | .edit snap => { s with fields := snap }
  | .saveSuccess => { s with fields := 0, draft := none, saved := true }

/-- The autosave effect, run after each committed state change:
`if (!hydrated) return; if (saved) return; saveDraft()`. -/
def autosaveEffect (s : Session) : Session :=
  if s.hydrated && !s.saved then
    { s with draft := some s.fields, writes := s.writes ++ [s.fields] }
  else s

/-- One commit: apply the event, then run the effect. -/
def sessionStep (s : Session) (e : SEvent) : Session :=
  autosaveEffect (applyEvent s e)

/-- Run a whole event sequence. -/
def sessionRun (s : Session) (evs : List SEvent) : Session :=
  evs.foldl sessionStep s

/-- Fresh session: not hydrated, not saved, no writes yet. -/
def initSession (f0 : Nat) (d0 : Option Nat) : Session :=
  { fields := f0, hydrated := false, saved := false, draft := d0, writes := [] }

/-! ### Concrete sample data

Fixed sample values used by the concrete evaluations below. -/

/-- A sample cached draft under key "k". -/
def exampleDraft : Draft := ⟨Mode.daily, some 4, ["c1"], [("c1", 4)], none, "n", []⟩

/-- A sample filled-in form. -/
def exampleForm : FormState :=
  ⟨some 8, ["c1"], [("c1", 6)], "", "notes", [("t1", ⟨some 2, some "lbl"⟩)]⟩

/-- A sample store slice with an existing daily row and stale child rows. -/
def exampleDb : Db :=
  ⟨some ⟨"log1", some 5, some "hi"⟩, [⟨"log1", "condA", some 6⟩],
   [⟨"log1", "trigOld", some 1, some "Yes"⟩], [], [], []⟩

/-- A sample draft cache holding `exampleDraft` under key "k". -/
def exampleDrafts : List (String × Draft) := [("k", exampleDraft)]

/-- A failure oracle in which every persisted write succeeds but the
`users` fetch inside `updateStreak` rejects. -/
def envStreakFail : Env := { Env.ok with streakFetchErr := true }

/-! ## Theorems -/

/-- C2 counterexample.  The claim says the fallback severity is the
round-half-up mean of all currently-set per-condition severities.  The code
instead averages over the selected conditions, counting a selected condition
with no set severity as 0: with conditions A (severity 6) and B (selected,
severity unset) the code persists 3 while the claim's reading yields 6; and
with one selected condition and no set severity the code persists 0 while
the claim's reading yields null. -/
theorem C2_severity_counterexample :
    finalOverallSeverity none ["A", "B"] [("A", 6)] = some 3 ∧
    specFinalOverallSeverity none [("A", 6)] = some 6 ∧
    finalOverallSeverity none ["A"] [] = some 0 ∧
    specFinalOverallSeverity none [] = none := by
  refine ⟨?_, ?_, ?_, rfl⟩
  · simp [finalOverallSeverity, avgConditionSeverity, List.lookup]
    norm_num [jsRound]
  · simp [specFinalOverallSeverity]
    norm_num [jsRound]
  · simp [finalOverallSeverity, avgConditionSeverity, List.lookup]
    norm_num [jsRound]

/-- C2 amended.  The persisted final overall severity equals the explicit
overall-severity field when set; otherwise, when at least one condition is
selected, it is the round-half-up mean over the selected conditions with an
unset per-condition severity counted as 0; otherwise it is null.  With
conditions A (severity 6) and B (severity 7) selected and no explicit
severity the result is 7, and with zero selected conditions and no explicit
severity it is null. -/
theorem C2_severity_fallback (v : Int) (sel : List String)
    (cs : List (String × Int)) :
    finalOverallSeverity (some v) sel cs = some v ∧
    finalOverallSeverity none [] cs = none ∧
    finalOverallSeverity none ["A", "B"] [("A", 6), ("B", 7)] = some 7 ∧
    (sel ≠ [] →
      finalOverallSeverity none sel cs =
        some (jsRound
          ((sel.map fun id => (((cs.lookup id).getD 0 : ℤ) : ℚ)).sum
            / (sel.length : ℚ)))) := by
  refine ⟨rfl, rfl, ?_, ?_⟩
  · simp [finalOverallSeverity, avgConditionSeverity, List.lookup]
    norm_num [jsRound]
  · intro h
    have hl : sel.length > 0 := List.length_pos.mpr h
    simp only [finalOverallSeverity, avgConditionSeverity, if_pos hl]
    rw [Int.cast_list_sum, List.map_map]
    rfl

/-- C2 witness: the amended theorem applied at a concrete input. -/
theorem C2_severity_fallback_w :
    (["X"] : List String) ≠ [] ∧
    finalOverallSeverity none ["X"] [("X", 4)] =
      some (jsRound
        ((["X"].map fun id => ((([("X", (4 : ℤ))].lookup id).getD 0 : ℤ) : ℚ)).sum
          / ((["X"] : List String).length : ℚ))) :=
  ⟨by decide, (C2_severity_fallback 0 ["X"] [("X", 4)]).2.2.2 (by decide)⟩

/-- `showPeriodPain` holds exactly when some enabled trigger keyed
`on_period` currently has numeric value 1, provided at most one enabled
trigger carries that key. -/
theorem showPeriodPain_iff (enabled : List Trigger)
    (tv : List (String × TriggerVal))
    (huniq : ∀ p ∈ enabled, ∀ q ∈ enabled,
      p.key = "on_period" → q.key = "on_period" → p = q) :
    showPeriodPain enabled tv = true ↔
      ∃ p ∈ enabled, p.key = "on_period" ∧
        (tv.lookup p.id).bind TriggerVal.value = some 1 := by
  unfold showPeriodPain onPeriodTrigger
  constructor
  · intro h
    match hf : enabled.find? (fun t => t.key == "on_period") with
    | none => simp [hf] at h
    | some t =>
      simp only [hf, beq_iff_eq] at h
      exact ⟨t, List.mem_of_find?_eq_some hf,
        by simpa using List.find?_some hf, h⟩
  · rintro ⟨p, hp, hkey, hval⟩
    match hf : enabled.find? (fun t => t.key == "on_period") with
    | none =>
      exfalso
      have hnp := List.find?_eq_none.mp hf p hp
      simp [hkey] at hnp
    | some t =>
      have ht : t ∈ enabled := List.mem_of_find?_eq_some hf
      have htk : t.key = "on_period" := by simpa using List.find?_some hf
      have htp : t = p := huniq t ht p hp htk hkey
      subst htp
      simp [hf, hval]

/-- C6.  The derived visible trigger list passes every trigger not keyed
`period_pain` through (and is a sublist of the enabled list, so nothing is
added), and contains a trigger keyed `period_pain` exactly when some
enabled trigger keyed `on_period` currently has value exactly 1 — so the
`period_pain` trigger is excluded when that value is absent, null, not 1,
or the `on_period` trigger is not enabled. -/
theorem C6_trigger_visibility (enabled : List Trigger)
    (tv : List (String × TriggerVal))
    (huniq : ∀ p ∈ enabled, ∀ q ∈ enabled,
      p.key = "on_period" → q.key = "on_period" → p = q) :
    (∀ t ∈ enabled, t.key ≠ "period_pain" → t ∈ filteredTriggers enabled tv) ∧
    (filteredTriggers enabled tv).Sublist enabled ∧
    (∀ t ∈ enabled, t.key = "period_pain" →
      (t ∈ filteredTriggers enabled tv ↔
        ∃ p ∈ enabled, p.key = "on_period" ∧
          (tv.lookup p.id).bind TriggerVal.value = some 1)) := by
  refine ⟨?_, List.filter_sublist _, ?_⟩
  · intro t ht hk
    simp [filteredTriggers, List.mem_filter, ht, hk]
  · intro t ht hk
    rw [← showPeriodPain_iff enabled tv huniq]
    simp [filteredTriggers, List.mem_filter, ht, hk]

/-- C6 witness: with `on_period` enabled and set to 1, the `period_pain`
trigger is visible; a trigger keyed neither way always passes through. -/
theorem C6_trigger_visibility_w :
    (⟨"t2", "period_pain", "scale"⟩ : Trigger) ∈
      filteredTriggers [⟨"t1", "on_period", "binary"⟩, ⟨"t2", "period_pain", "scale"⟩]
        [("t1", ⟨some 1, none⟩)] :=
  ((C6_trigger_visibility _ _ (by decide)).2.2 _ (by decide) rfl).mpr
    ⟨⟨"t1", "on_period", "binary"⟩, by decide, rfl, by decide⟩

/-- Two pairs with the same key in a list with duplicate-free keys carry
the same value. -/
theorem pair_mem_unique {β : Type} (l : List (String × β))
    (h : (l.map Prod.fst).Nodup) :
    ∀ (a : String) (b c : β), (a, b) ∈ l → (a, c) ∈ l → b = c := by
  induction l with
  | nil => simp
  | cons x xs ih =>
    intro a b c hb hc
    simp only [List.map_cons, List.nodup_cons] at h
    rcases List.mem_cons.mp hb with hb | hb
    · rcases List.mem_cons.mp hc with hc | hc
      · rw [← hb] at hc
        exact (Prod.mk.injEq .. ▸ hc).2.symm
      · exfalso
        apply h.1
        rw [← hb]
        simpa using List.mem_map_of_mem Prod.fst hc
    · rcases List.mem_cons.mp hc with hc | hc
      · exfalso
        apply h.1
        rw [← hc]
        simpa using List.mem_map_of_mem Prod.fst hb
      · exact ih h.2 a b c hb hc

/-- Every entry of the TriggerEntries write-set is keyed by one of the
record's keys. -/
theorem triggerEntries_key_mem (tv : List (String × TriggerVal)) :
    ∀ e ∈ triggerEntries tv, e.trigger_id ∈ tv.map Prod.fst := by
  intro e he
  simp only [triggerEntries, List.mem_filterMap] at he
  obtain ⟨p, hp, hfe⟩ := he
  obtain ⟨m, _, rfl⟩ := Option.map_eq_some'.mp hfe
  exact List.mem_map_of_mem Prod.fst hp

/-- The TriggerEntries write-set restricted to a key whose current value
is non-null is exactly the one corresponding entry. -/
theorem triggerEntries_filter_eq (tv : List (String × TriggerVal))
    (h : (tv.map Prod.fst).Nodup) (id : String) (v : TriggerVal) (n : Int)
    (hmem : (id, v) ∈ tv) (hval : v.value = some n) :
    (triggerEntries tv).filter (fun e => e.trigger_id == id) =
      [{ trigger_id := id, value := n, value_text := jsOptStrOrNull v.valueText }] := by
  induction tv with
  | nil => simp at hmem
  | cons x xs ih =>
    obtain ⟨k, w⟩ := x
    simp only [List.map_cons, List.nodup_cons] at h
    rcases List.mem_cons.mp hmem with hx | hx
    · obtain ⟨hk, hw⟩ := Prod.mk.injEq .. ▸ hx
      subst hk
      subst hw
      have hrest : (triggerEntries xs).filter (fun e => e.trigger_id == id) = [] := by
        apply List.filter_eq_nil_iff.mpr
        intro e he
        have hkm := triggerEntries_key_mem xs e he
        simp only [beq_iff_eq]
        intro heq
        rw [heq] at hkm
        exact h.1 hkm
      simp only [triggerEntries] at hrest
      simp only [triggerEntries, List.filterMap_cons, hval, Option.map_some']
      rw [List.filter_cons]
      simp only [beq_self_eq_true, if_pos]
      rw [hrest]
    · have hid : id ∈ xs.map Prod.fst := by
        simpa using List.mem_map_of_mem Prod.fst hx
      have hkid : k ≠ id := fun hk => h.1 (hk ▸ hid)
      have ihx := ih h.2 hx
      simp only [triggerEntries] at ihx
      simp only [triggerEntries, List.filterMap_cons]
      cases hwv : w.value with
      | none =>
        simp only [Option.map_none']
        exact ihx
      | some m =>
        simp only [Option.map_some']
        rw [List.filter_cons]
        rw [if_neg (by simp [hkid])]
        exact ihx

/-- C8.  For every save, the TriggerEntries write-set contains exactly one
entry per trigger whose current form value is non-null (carrying that
value), and a trigger whose current value is null contributes no entry at
all. -/
theorem C8_null_value_omission (tv : List (String × TriggerVal))
    (hnodup : (tv.map Prod.fst).Nodup) :
    (∀ id v, (id, v) ∈ tv → v.value = none →
      ∀ e ∈ triggerEntries tv, e.trigger_id ≠ id) ∧
    (∀ id v n, (id, v) ∈ tv → v.value = some n →
      (triggerEntries tv).filter (fun e => e.trigger_id == id) =
        [{ trigger_id := id, value := n,
           value_text := jsOptStrOrNull v.valueText }]) := by
  constructor
  · intro id v hmem hnone e he heq
    simp only [triggerEntries, List.mem_filterMap] at he
    obtain ⟨p, hp, hfe⟩ := he
    obtain ⟨m, hm, rfl⟩ := Option.map_eq_some'.mp hfe
    have h1 : (p.1, p.2) ∈ tv := by simpa using hp
    have hpid : p.1 = id := heq
    have h2 : (p.1, v) ∈ tv := by rw [hpid]; exact hmem
    have hpv : p.2 = v := pair_mem_unique tv hnodup p.1 p.2 v h1 h2
    rw [hpv] at hm
    rw [hnone] at hm
    cases hm
  · intro id v n hmem hval
    exact triggerEntries_filter_eq tv hnodup id v n hmem hval

/-- C8 witness: the theorem applied to a concrete trigger-value record with
one set, one null and one zero-valued trigger. -/
theorem C8_null_value_omission_w :
    (triggerEntries [("a", ⟨some 2, some "x"⟩), ("b", ⟨none, some "y"⟩),
        ("c", ⟨some 0, some ""⟩)]).filter (fun e => e.trigger_id == "a") =
      [{ trigger_id := "a", value := 2,
         value_text := jsOptStrOrNull (some "x") }] :=
  (C8_null_value_omission _ (by decide)).2 "a" ⟨some 2, some "x"⟩ 2
    (by decide) rfl



/-- Looking a key up in a record after the in-place replacement branch of
`jsSet`. -/
theorem lookup_map_replace {α : Type} (m : List (String × α)) (k k' : String) (v : α) :
    (m.map (fun p => if p.1 = k then (k, v) else p)).lookup k' =
      if k' = k then (m.lookup k).map (fun _ => v) else m.lookup k' := by
  induction m with
  | nil => simp [List.lookup]
  | cons x xs ih =>
    obtain ⟨a, b⟩ := x
    simp only [List.map_cons]
    by_cases hak : a = k
    · subst hak
      by_cases hk : k' = a
      · subst hk
        simp [List.lookup_cons, ih]
      · have h1 : (k' == a) = false := beq_false_of_ne hk
        simp [List.lookup_cons, h1, ih, hk]
    · simp only [if_neg (by simpa using hak)]
      by_cases hka : a = k'
      · subst hka
        simp [List.lookup_cons, if_neg (fun h : a = k => hak h)]
      · have h1 : (k' == a) = false := beq_false_of_ne (fun h => hka h.symm)
        have h2 : (k == a) = false := beq_false_of_ne (fun h => hak h.symm)
        simp [List.lookup_cons, h1, h2, ih]

/-- Lookup distributes over appending association lists. -/
theorem lookup_append {α : Type} (l1 l2 : List (String × α)) (a : String) :
    (l1 ++ l2).lookup a =
      match l1.lookup a with
      | some v => some v
      | none => l2.lookup a := by
  induction l1 with
  | nil => simp [List.lookup]
  | cons x xs ih =>
    obtain ⟨c, b⟩ := x
    by_cases hca : a = c
    · subst hca
      simp [List.lookup_cons]
    · have h1 : (a == c) = false := beq_false_of_ne hca
      simp [List.lookup_cons, h1, ih]

/-- `jsSet` behaves as a map update under lookup. -/
theorem lookup_jsSet {α : Type} (m : List (String × α)) (k k' : String) (v : α) :
    (jsSet m k v).lookup k' = if k' = k then some v else m.lookup k' := by
  unfold jsSet
  by_cases hs : (m.lookup k).isSome
  · rw [if_pos hs, lookup_map_replace]
    by_cases hk : k' = k
    · obtain ⟨w, hw⟩ := Option.isSome_iff_exists.mp hs
      simp [hk, hw]
    · simp [hk]
  · rw [if_neg hs, lookup_append]
    have hnone : m.lookup k = none := Option.not_isSome_iff_eq_none.mp hs
    by_cases hk : k' = k
    · subst hk
      simp [hnone, List.lookup_cons]
    · have h1 : (k' == k) = false := beq_false_of_ne hk
      cases hml : m.lookup k' with
      | some w => simp [hml, hk]
      | none => simp [hml, hk, List.lookup_cons, h1]



/-- The rebuild loop of `loadEnabledTriggers` restricts the previous
record to the keys of the leaf-trigger list, leaving the retained values
unchanged. -/
theorem lookup_pruneLoop (prev : List (String × TriggerVal)) :
    ∀ (leaf : List Trigger) (acc : List (String × TriggerVal)) (id : String),
      (leaf.foldl (fun next t =>
        match prev.lookup t.id with
        | some v => jsSet next t.id v
        | none => next) acc).lookup id =
      if (∃ t ∈ leaf, t.id = id) ∧ (prev.lookup id).isSome = true
      then prev.lookup id else acc.lookup id := by
  intro leaf
  induction leaf with
  | nil =>
    intro acc id
    simp
  | cons t ts ih =>
    intro acc id
    simp only [List.foldl_cons]
    by_cases hid : t.id = id
    · cases hpt : prev.lookup t.id with
      | none =>
        have hnone : prev.lookup id = none := hid ▸ hpt
        simp only [hpt]
        rw [ih]
        simp [hnone]
      | some v =>
        have hsome : prev.lookup id = some v := hid ▸ hpt
        simp only [hpt]
        rw [ih]
        by_cases hex : (∃ x ∈ ts, x.id = id) ∧ (prev.lookup id).isSome = true
        · rw [if_pos hex,
            if_pos ⟨⟨t, List.mem_cons_self t ts, hid⟩, by simp [hsome]⟩]
        · rw [if_neg hex, lookup_jsSet, if_pos hid.symm,
            if_pos ⟨⟨t, List.mem_cons_self t ts, hid⟩, by simp [hsome]⟩, hsome]
    · have hiff : ((∃ x ∈ t :: ts, x.id = id) ∧ (prev.lookup id).isSome = true) ↔
          ((∃ x ∈ ts, x.id = id) ∧ (prev.lookup id).isSome = true) := by
        constructor
        · rintro ⟨⟨x, hx, hxid⟩, hq⟩
          rcases List.mem_cons.mp hx with rfl | hx2
          · exact absurd hxid hid
          · exact ⟨⟨x, hx2, hxid⟩, hq⟩
        · rintro ⟨⟨x, hx, hxid⟩, hq⟩
          exact ⟨⟨x, List.mem_cons_of_mem _ hx, hxid⟩, hq⟩
      cases hpt : prev.lookup t.id with
      | none =>
        simp only [hpt]
        rw [ih, if_congr hiff rfl rfl]
      | some v =>
        simp only [hpt]
        have hne : ¬ id = t.id := fun h => hid h.symm
        rw [ih, lookup_jsSet, if_neg hne, if_congr hiff rfl rfl]

/-- C10.  After a successful (re)load of the enabled triggers, the in-form
trigger-value record contains exactly the previous entries whose trigger id
appears in the newly fetched enabled leaf (non-group) trigger list, with
each retained value unchanged; the value of any trigger no longer enabled
is discarded. -/
theorem C10_trigger_value_pruning (fetched : List Trigger)
    (prev : List (String × TriggerVal)) (id : String) :
    ((loadEnabledTriggers fetched prev).2).lookup id =
      if id ∈ ((loadEnabledTriggers fetched prev).1).map Trigger.id
      then prev.lookup id else none := by
  unfold loadEnabledTriggers pruneTriggerValues
  rw [lookup_pruneLoop]
  by_cases hmem : id ∈ (fetched.filter (fun t => t.input_type ≠ "group")).map Trigger.id
  · obtain ⟨t, ht, htid⟩ := List.mem_map.mp hmem
    cases hq : prev.lookup id with
    | none => simp [hq, hmem, List.lookup]
    | some w =>
      rw [if_pos ⟨⟨t, ht, htid⟩, rfl⟩, if_pos hmem]
  · have hnex : ¬ ((∃ t ∈ fetched.filter (fun t => t.input_type ≠ "group"), t.id = id) ∧
        (prev.lookup id).isSome = true) := by
      rintro ⟨⟨t, ht, htid⟩, _⟩
      exact hmem (List.mem_map.mpr ⟨t, ht, htid⟩)
    rw [if_neg hnex, if_neg hmem]
    simp [List.lookup]


/-- C1.  For every editing context with a parseable draft present, the
uncancelled hydration pass leaves the Form State Store holding exactly the
draft's fields — activity text only when the draft's stored mode is
moment — and marks hydration complete, independently of whatever the
relational store holds (in particular of any persisted daily row for the
same date). -/
theorem C1_draft_precedence (mode : Mode) (d : Draft) (db : Db)
    (s0 : FormState × Bool) :
    applyWrites s0 (hydrateRun none mode (some d) db) =
      ({ overallSeverity := d.overallSeverity
         selectedConditions := d.selectedConditions
         conditionSeverities := d.conditionSeverities
         whatDoing := if d.mode = Mode.moment then d.whatDoing.getD "" else ""
         notes := d.notes
         triggerValues := d.triggerValues }, true) := by
  rfl

/-- C4.  Evaluating the hydration trace at a concrete input: daily mode, no
draft, an existing daily row, and a context switch during the
condition-child fetch (cancellation at resumption 3).  The selected
conditions, condition severities and trigger values of the abandoned pass
are still written after the cancellation flag is set, contradicting the
claim that no state write of a cancelled pass takes effect. -/
theorem C4_late_hydration_writes :
    writesWhileCancelled (some 3)
        (hydrateRun (some 3) Mode.daily none
          { daily := some ⟨"log1", some 5, some "hi"⟩,
            dailyConds := [⟨"log1", "condA", some 6⟩],
            dailyTrigs := [⟨"log1", "trig1", some 1, some "Yes"⟩],
            moments := [], momentConds := [], momentTrigs := [] }) =
      [FWrite.wSelected ["condA"], FWrite.wCondSev [("condA", 6)],
       FWrite.wTriggers [("trig1", ⟨some 1, some "Yes"⟩)]] := by
  decide

/-- A DAILY save ends in the catch branch with the draft cache untouched,
or in the success epilogue with the draft key removed. -/
theorem dailySaveTail_shape (env : Env) (logId : String) (form : FormState)
    (key : String) (db : Db) (drafts : List (String × Draft))
    (t : List TrigEntry) :
    (∃ db2, dailySaveTail env logId form key db drafts t = failRes db2 drafts form) ∨
    (∃ db2, dailySaveTail env logId form key db drafts t =
      { db := db2, drafts := drafts.filter (fun p => p.1 != key),
        form := resetForm, saved := true, errorSurfaced := false }) := by
  simp only [dailySaveTail]
  split_ifs <;> first
    | exact Or.inl ⟨_, rfl⟩
    | exact Or.inr ⟨_, rfl⟩

/-- A MOMENT save ends in the catch branch with the draft cache untouched,
or in the success epilogue with the draft key removed. -/
theorem momentSaveTail_shape (env : Env) (logId : String) (form : FormState)
    (key : String) (db : Db) (drafts : List (String × Draft))
    (t : List TrigEntry) :
    (∃ db2, momentSaveTail env logId form key db drafts t = failRes db2 drafts form) ∨
    (∃ db2, momentSaveTail env logId form key db drafts t =
      { db := db2, drafts := drafts.filter (fun p => p.1 != key),
        form := resetForm, saved := true, errorSurfaced := false }) := by
  simp only [momentSaveTail]
  split_ifs <;> first
    | exact Or.inl ⟨_, rfl⟩
    | exact Or.inr ⟨_, rfl⟩

/-- Every `handleSave` run ends either in the catch branch (alert, draft
cache untouched, form kept) or in the success epilogue (draft key removed,
form reset, saved flag set). -/
theorem handleSave_shape (env : Env) (newId : String) (mode : Mode)
    (form : FormState) (key : String) (db : Db)
    (drafts : List (String × Draft)) :
    (∃ db2, handleSave env newId mode form key db drafts = failRes db2 drafts form) ∨
    (∃ db2, handleSave env newId mode form key db drafts =
      { db := db2, drafts := drafts.filter (fun p => p.1 != key),
        form := resetForm, saved := true, errorSurfaced := false }) := by
  cases mode with
  | daily =>
    cases hd : db.daily with
    | some existing =>
      simp only [handleSave, handleSaveDaily, hd]
      split_ifs <;> first
        | exact Or.inl ⟨_, rfl⟩
        | exact dailySaveTail_shape env existing.id form key _ drafts _
    | none =>
      simp only [handleSave, handleSaveDaily, hd]
      split_ifs <;> first
        | exact Or.inl ⟨_, rfl⟩
        | exact dailySaveTail_shape env newId form key _ drafts _
  | moment =>
    simp only [handleSave, handleSaveMoment]
    split_ifs <;> first
      | exact Or.inl ⟨_, rfl⟩
      | exact momentSaveTail_shape env newId form key _ drafts _

/-- With the all-success oracle no alert is surfaced. -/
theorem handleSave_ok_no_error (newId : String) (mode : Mode)
    (form : FormState) (key : String) (db : Db)
    (drafts : List (String × Draft)) :
    (handleSave Env.ok newId mode form key db drafts).errorSurfaced = false := by
  cases mode with
  | daily =>
    cases hd : db.daily with
    | some existing =>
      simp [handleSave, handleSaveDaily, hd, dailySaveTail, updateStreakThrows,
        Env.ok]
    | none =>
      simp [handleSave, handleSaveDaily, hd, dailySaveTail, updateStreakThrows,
        Env.ok]
  | moment =>
    simp [handleSave, handleSaveMoment, momentSaveTail, updateStreakThrows,
      Env.ok]

/-- Removing a key from an association list makes its lookup absent. -/
theorem lookup_filter_bne {α : Type} (l : List (String × α)) (key : String) :
    (l.filter (fun p => p.1 != key)).lookup key = none := by
  induction l with
  | nil => simp [List.lookup]
  | cons x xs ih =>
    obtain ⟨a, b⟩ := x
    by_cases hak : a = key
    · subst hak
      simp [List.filter_cons, ih]
    · have h1 : (a != key) = true := by simp [hak]
      have h2 : (key == a) = false := beq_false_of_ne (fun h => hak h.symm)
      simp [List.filter_cons, h1, List.lookup_cons, h2, ih]

/-- C5.  For every save attempt with a draft cached under the session key:
when a write fails, an error is surfaced, "saved" is not signalled, the
form is kept and the draft is still present with its pre-save contents;
when no error is surfaced, "saved" is signalled and the draft for that key
is absent; and with the all-success oracle no error is surfaced. -/
theorem C5_draft_clears_only_on_success (env : Env) (newId : String)
    (mode : Mode) (form : FormState) (key : String) (db : Db)
    (drafts : List (String × Draft)) (d : Draft)
    (hkey : drafts.lookup key = some d) :
    ((handleSave env newId mode form key db drafts).errorSurfaced = true →
      (handleSave env newId mode form key db drafts).drafts.lookup key = some d ∧
      (handleSave env newId mode form key db drafts).saved = false ∧
      (handleSave env newId mode form key db drafts).form = form) ∧
    ((handleSave env newId mode form key db drafts).errorSurfaced = false →
      (handleSave env newId mode form key db drafts).saved = true ∧
      (handleSave env newId mode form key db drafts).drafts.lookup key = none) ∧
    (env = Env.ok →
      (handleSave env newId mode form key db drafts).errorSurfaced = false) := by
  rcases handleSave_shape env newId mode form key db drafts with ⟨db2, heq⟩ | ⟨db2, heq⟩
  · rw [heq]
    refine ⟨fun _ => ⟨hkey, rfl, rfl⟩, ?_, ?_⟩
    · intro h
      simp [failRes] at h
    · intro he
      subst he
      exfalso
      have h1 := handleSave_ok_no_error newId mode form key db drafts
      rw [heq] at h1
      simp [failRes] at h1
  · rw [heq]
    exact ⟨fun h => by simp at h, fun _ => ⟨rfl, lookup_filter_bne drafts key⟩,
      fun _ => rfl⟩

/-- C5 witness: a successful concrete save deletes the cached draft. -/
theorem C5_draft_clears_only_on_success_w :
    (exampleDrafts.lookup "k" = some exampleDraft) ∧
    ((handleSave Env.ok "new1" Mode.daily exampleForm "k" exampleDb
        exampleDrafts).errorSurfaced = false →
      (handleSave Env.ok "new1" Mode.daily exampleForm "k" exampleDb
        exampleDrafts).saved = true ∧
      (handleSave Env.ok "new1" Mode.daily exampleForm "k" exampleDb
        exampleDrafts).drafts.lookup "k" = none) :=
  ⟨by decide,
   (C5_draft_clears_only_on_success Env.ok "new1" Mode.daily exampleForm "k"
      exampleDb exampleDrafts exampleDraft (by decide)).2.1⟩

/-- C3 counterexample.  With every persisted write succeeding and only the
streak update failing, the save does not complete: the error is surfaced,
"saved" is not signalled, the draft is still cached and the form is kept —
while the persisted writes (here the freshly inserted trigger child row)
remain in place.  The claim instead asserts the draft is deleted, the form
reset and "saved" signalled with no error. -/
theorem C3_streak_rollback_counterexample :
    (handleSave envStreakFail "new1" Mode.daily exampleForm "k" exampleDb
      exampleDrafts).errorSurfaced = true ∧
    (handleSave envStreakFail "new1" Mode.daily exampleForm "k" exampleDb
      exampleDrafts).saved = false ∧
    (handleSave envStreakFail "new1" Mode.daily exampleForm "k" exampleDb
      exampleDrafts).drafts.lookup "k" = some exampleDraft ∧
    (handleSave envStreakFail "new1" Mode.daily exampleForm "k" exampleDb
      exampleDrafts).form = exampleForm ∧
    (handleSave envStreakFail "new1" Mode.daily exampleForm "k" exampleDb
      exampleDrafts).db.dailyTrigs = [⟨"log1", "t1", some 2, some "lbl"⟩] := by
  decide

/-- C3 amended.  If every persisted write of a save succeeds but the
awaited `updateStreak` call throws, the failure is caught by the save
handler's single catch: an error is surfaced to the user, "saved" is not
signalled, the local draft cache is left untouched and the Form State
Store keeps its contents — the already-performed persisted writes are not
rolled back, but the save epilogue never runs. -/
theorem C3_streak_failure (env : Env) (newId : String) (mode : Mode)
    (form : FormState) (key : String) (db : Db)
    (drafts : List (String × Draft))
    (hex : env.exErr = false) (hupd : env.updErr = false)
    (hcre : env.createErr = false) (hdc : env.delCondErr = false)
    (hdt : env.delTrigErr = false) (hic : env.insCondErr = false)
    (hit : env.insTrigErr = false) (hm : env.momentErr = false)
    (himc : env.insMCondErr = false) (himt : env.insMTrigErr = false)
    (hstreak : updateStreakThrows env = true) :
    (handleSave env newId mode form key db drafts).errorSurfaced = true ∧
    (handleSave env newId mode form key db drafts).saved = false ∧
    (handleSave env newId mode form key db drafts).drafts = drafts ∧
    (handleSave env newId mode form key db drafts).form = form := by
  cases mode with
  | daily =>
    cases hd : db.daily with
    | some existing =>
      simp [handleSave, handleSaveDaily, hd, dailySaveTail, hex, hupd, hdc,
        hdt, hic, hit, hstreak, failRes]
    | none =>
      simp [handleSave, handleSaveDaily, hd, dailySaveTail, hex, hcre, hic,
        hit, hstreak, failRes]
  | moment =>
    simp [handleSave, handleSaveMoment, momentSaveTail, hm, himc, himt,
      hstreak, failRes]

/-- C3 witness: the amended theorem applied to a concrete moment save whose
streak update fails. -/
theorem C3_streak_failure_w :
    updateStreakThrows envStreakFail = true ∧
    (handleSave envStreakFail "new2" Mode.moment exampleForm "k" exampleDb
      exampleDrafts).drafts = exampleDrafts :=
  ⟨by decide,
   (C3_streak_failure envStreakFail "new2" Mode.moment exampleForm "k"
      exampleDb exampleDrafts rfl rfl rfl rfl rfl rfl rfl rfl rfl rfl
      (by decide)).2.2.1⟩

/-- Explicit outcome of a fully successful DAILY save against an existing
row: scalar fields updated in place, both child sets replaced by the new
write-sets, the draft key removed, the form reset. -/
theorem handleSaveDaily_ok_existing (newId : String) (form : FormState)
    (key : String) (db : Db) (drafts : List (String × Draft))
    (row : DailyRowData) (hrow : db.daily = some row) :
    handleSaveDaily Env.ok newId form key db drafts =
      { db := { db with
          daily := some ⟨row.id,
            finalOverallSeverity form.overallSeverity form.selectedConditions
              form.conditionSeverities,
            jsStrOrNull form.notes⟩,
          dailyConds := db.dailyConds.filter (fun r => r.log_id != row.id) ++
            (if form.selectedConditions.length > 0 then condEntries row.id form
             else []),
          dailyTrigs := db.dailyTrigs.filter (fun r => r.log_id != row.id) ++
            (if (triggerEntries form.triggerValues).length > 0
             then (triggerEntries form.triggerValues).map (trigRowOf row.id)
             else []) },
        drafts := drafts.filter (fun p => p.1 != key),
        form := resetForm, saved := true, errorSurfaced := false } := by
  by_cases hc : form.selectedConditions.length > 0 <;>
    by_cases ht : (triggerEntries form.triggerValues).length > 0 <;>
      simp [handleSaveDaily, hrow, Env.ok, dailySaveTail, updateStreakThrows,
        hc, ht]

/-- Keeping the rows of other parents and then selecting this parent's rows
yields nothing. -/
theorem filter_ne_then_eq {α : Type} (f : α → String) (l : List α)
    (id : String) :
    ((l.filter (fun r => f r != id)).filter (fun r => f r == id)) = [] := by
  apply List.filter_eq_nil_iff.mpr
  intro a ha
  have h2 := (List.mem_filter.mp ha).2
  simp only [bne_iff_ne] at h2
  simp [h2]

/-- Every inserted trigger child row carries the parent id it was built
for. -/
theorem filter_eq_map_trigRow (id : String) (es : List TrigEntry) :
    ((es.map (trigRowOf id)).filter (fun r => r.log_id == id)) =
      es.map (trigRowOf id) := by
  apply List.filter_eq_self.mpr
  intro a ha
  obtain ⟨e, he, rfl⟩ := List.mem_map.mp ha
  simp [trigRowOf]

/-- Every inserted condition child row carries the parent id it was built
for. -/
theorem condEntries_filter_self (id : String) (form : FormState) :
    (condEntries id form).filter (fun c => c.log_id == id) =
      condEntries id form := by
  apply List.filter_eq_self.mpr
  intro a ha
  simp only [condEntries, List.mem_map] at ha
  obtain ⟨c, hc, rfl⟩ := ha
  simp

/-- After a successful DAILY save against existing row `row`, the trigger
child rows of that row are exactly the new TriggerEntries write-set. -/
theorem dailyTrigs_after_ok_existing (newId : String) (form : FormState)
    (key : String) (db : Db) (drafts : List (String × Draft))
    (row : DailyRowData) (hrow : db.daily = some row) :
    (handleSaveDaily Env.ok newId form key db drafts).db.dailyTrigs.filter
        (fun t => t.log_id == row.id) =
      (triggerEntries form.triggerValues).map (trigRowOf row.id) := by
  rw [handleSaveDaily_ok_existing newId form key db drafts row hrow]
  by_cases ht : (triggerEntries form.triggerValues).length > 0
  · simp [ht, List.filter_append, filter_ne_then_eq TrigRow.log_id,
      filter_eq_map_trigRow]
  · have hnil : triggerEntries form.triggerValues = [] :=
      List.length_eq_zero.mp (Nat.eq_zero_of_not_pos ht)
    simp [ht, hnil, List.filter_append, filter_ne_then_eq TrigRow.log_id]

/-- After a successful DAILY save against existing row `row`, the condition
child rows of that row are exactly the new ConditionEntries write-set. -/
theorem dailyConds_after_ok_existing (newId : String) (form : FormState)
    (key : String) (db : Db) (drafts : List (String × Draft))
    (row : DailyRowData) (hrow : db.daily = some row) :
    (handleSaveDaily Env.ok newId form key db drafts).db.dailyConds.filter
        (fun c => c.log_id == row.id) = condEntries row.id form := by
  rw [handleSaveDaily_ok_existing newId form key db drafts row hrow]
  by_cases hc : form.selectedConditions.length > 0
  · simp [hc, List.filter_append, filter_ne_then_eq CondRow.log_id,
      condEntries_filter_self]
  · have hnil : form.selectedConditions = [] :=
      List.length_eq_zero.mp (Nat.eq_zero_of_not_pos hc)
    simp [hc, List.filter_append, filter_ne_then_eq CondRow.log_id,
      condEntries, hnil]

/-- C7.  A successful DAILY save against an existing row fully replaces its
child rows: afterwards the row's ConditionEntries and TriggerEntries are
exactly the new write-sets, rows of other parents are preserved, and a
second successful save leaves exactly the second save's trigger set — no
accumulation from the first. -/
theorem C7_child_replace (newId1 newId2 : String) (form1 form2 : FormState)
    (key : String) (db : Db) (drafts : List (String × Draft))
    (row : DailyRowData) (hrow : db.daily = some row) :
    ((handleSave Env.ok newId1 Mode.daily form1 key db drafts).db.dailyConds.filter
        (fun c => c.log_id == row.id) = condEntries row.id form1) ∧
    ((handleSave Env.ok newId1 Mode.daily form1 key db drafts).db.dailyTrigs.filter
        (fun t => t.log_id == row.id) =
      (triggerEntries form1.triggerValues).map (trigRowOf row.id)) ∧
    (∀ t ∈ db.dailyTrigs, t.log_id ≠ row.id →
      t ∈ (handleSave Env.ok newId1 Mode.daily form1 key db drafts).db.dailyTrigs) ∧
    ((handleSave Env.ok newId2 Mode.daily form2 key
        (handleSave Env.ok newId1 Mode.daily form1 key db drafts).db
        (handleSave Env.ok newId1 Mode.daily form1 key db drafts).drafts).db.dailyTrigs.filter
        (fun t => t.log_id == row.id) =
      (triggerEntries form2.triggerValues).map (trigRowOf row.id)) := by
  simp only [handleSave]
  refine ⟨dailyConds_after_ok_existing newId1 form1 key db drafts row hrow,
    dailyTrigs_after_ok_existing newId1 form1 key db drafts row hrow, ?_, ?_⟩
  · intro t htmem htne
    rw [handleSaveDaily_ok_existing newId1 form1 key db drafts row hrow]
    apply List.mem_append_left
    exact List.mem_filter.mpr ⟨htmem, by simp [htne]⟩
  · have hrow2 : (handleSaveDaily Env.ok newId1 form1 key db drafts).db.daily =
        some ⟨row.id,
          finalOverallSeverity form1.overallSeverity form1.selectedConditions
            form1.conditionSeverities,
          jsStrOrNull form1.notes⟩ := by
      rw [handleSaveDaily_ok_existing newId1 form1 key db drafts row hrow]
    exact dailyTrigs_after_ok_existing newId2 form2 key _ _
      ⟨row.id,
        finalOverallSeverity form1.overallSeverity form1.selectedConditions
          form1.conditionSeverities,
        jsStrOrNull form1.notes⟩ hrow2

/-- C7 witness: the replacement theorem applied to a concrete save against
the sample row. -/
theorem C7_child_replace_w :
    exampleDb.daily = some ⟨"log1", some 5, some "hi"⟩ ∧
    ((handleSave Env.ok "n1" Mode.daily exampleForm "k" exampleDb
        exampleDrafts).db.dailyTrigs.filter (fun t => t.log_id == "log1") =
      (triggerEntries exampleForm.triggerValues).map (trigRowOf "log1")) :=
  ⟨rfl,
   (C7_child_replace "n1" "n2" exampleForm exampleForm "k" exampleDb
      exampleDrafts ⟨"log1", some 5, some "hi"⟩ rfl).2.1⟩

/-- One commit unfolds to a step. -/
theorem sessionRun_cons (s : Session) (e : SEvent) (l : List SEvent) :
    sessionRun s (e :: l) = sessionRun (sessionStep s e) l := rfl

/-- Running a concatenation of event sequences. -/
theorem sessionRun_append (s : Session) (l1 l2 : List SEvent) :
    sessionRun s (l1 ++ l2) = sessionRun (sessionRun s l1) l2 :=
  List.foldl_append _ _ _ _

/-- Once the saved flag is set nothing unsets it and no further autosave
write is appended. -/
theorem sessionRun_saved_frozen (l : List SEvent) :
    ∀ s : Session, s.saved = true →
      (sessionRun s l).saved = true ∧ (sessionRun s l).writes = s.writes := by
  induction l with
  | nil => intro s h; exact ⟨h, rfl⟩
  | cons e es ih =>
    intro s h
    have hstep : (sessionStep s e).saved = true ∧
        (sessionStep s e).writes = s.writes := by
      cases e <;> simp [sessionStep, applyEvent, autosaveEffect, h]
    obtain ⟨h1, h2⟩ := hstep
    obtain ⟨h3, h4⟩ := ih (sessionStep s e) h1
    rw [sessionRun_cons]
    exact ⟨h3, h4.trans h2⟩

/-- While hydration has not completed, no autosave write is appended. -/
theorem sessionRun_unhydrated_frozen (l : List SEvent) :
    ∀ s : Session, s.hydrated = false →
      (∀ e ∈ l, e.isHydrationComplete = false) →
      (sessionRun s l).hydrated = false ∧ (sessionRun s l).writes = s.writes := by
  induction l with
  | nil => intro s h _; exact ⟨h, rfl⟩
  | cons e es ih =>
    intro s h hall
    have he := hall e (List.mem_cons_self e es)
    have hstep : (sessionStep s e).hydrated = false ∧
        (sessionStep s e).writes = s.writes := by
      cases e with
      | hydrationComplete snap => simp [SEvent.isHydrationComplete] at he
      | edit snap => simp [sessionStep, applyEvent, autosaveEffect, h]
      | saveSuccess => simp [sessionStep, applyEvent, autosaveEffect, h]
    obtain ⟨h1, h2⟩ := hstep
    obtain ⟨h3, h4⟩ := ih (sessionStep s e) h1
      (fun x hx => hall x (List.mem_cons_of_mem e hx))
    rw [sessionRun_cons]
    exact ⟨h3, h4.trans h2⟩

/-- C9 counterexample.  In a session with no prior draft, the completion of
hydration alone — with no user edit — already triggers one autosave write
of the hydrated snapshot, so DB-hydration does re-create a draft
duplicating server state, contrary to the claim's consequence that
hydration itself never re-writes such a draft. -/
theorem C9_hydration_autosave_counterexample :
    (sessionRun (initSession 0 none) [SEvent.hydrationComplete 5]).draft =
      some 5 ∧
    (sessionRun (initSession 0 none) [SEvent.hydrationComplete 5]).writes =
      [5] := by
  decide

/-- C9 amended.  No autosave write is initiated before the hydration pass
marks hydration complete, and none after a save for the session has
succeeded; however the completion of hydration itself counts as a
dependency change and immediately initiates one autosave write of the
hydrated snapshot. -/
theorem C9_autosave_gating (f0 : Nat) (d0 : Option Nat)
    (evs1 evs2 : List SEvent)
    (hnohyd : ∀ e ∈ evs1, e.isHydrationComplete = false) :
    (sessionRun (initSession f0 d0) evs1).writes = [] ∧
    (sessionRun (initSession f0 d0)
        (evs1 ++ SEvent.saveSuccess :: evs2)).writes =
      (sessionRun (initSession f0 d0) (evs1 ++ [SEvent.saveSuccess])).writes := by
  constructor
  · exact (sessionRun_unhydrated_frozen evs1 (initSession f0 d0) rfl hnohyd).2
  · have hsplit : evs1 ++ SEvent.saveSuccess :: evs2 =
        (evs1 ++ [SEvent.saveSuccess]) ++ evs2 := by simp
    rw [hsplit, sessionRun_append]
    have hsaved : (sessionRun (initSession f0 d0)
        (evs1 ++ [SEvent.saveSuccess])).saved = true := by
      rw [sessionRun_append]
      show (sessionStep _ SEvent.saveSuccess).saved = true
      simp [sessionStep, applyEvent, autosaveEffect]
    exact (sessionRun_saved_frozen evs2 _ hsaved).2

/-- C9 witness: a pre-hydration edit initiates no autosave write. -/
theorem C9_autosave_gating_w :
    (∀ e ∈ [SEvent.edit 3], e.isHydrationComplete = false) ∧
    (sessionRun (initSession 0 none) [SEvent.edit 3]).writes = [] :=
  ⟨by decide,
   (C9_autosave_gating 0 none [SEvent.edit 3] [SEvent.edit 9] (by decide)).1⟩

end MyBodyToldMe
